import Mathlib

/-!
Verification development for the `doc-input-gen` project-summary generator.

The program walks a project directory tree and concatenates the textual
contents of selected files into a single summary document.  The embedding
below models the filesystem as a tree of entries carrying the outcomes of
the I/O operations the program performs on them, and translates the Go
functions `isBinary`, `shouldIgnore`, `captureDirectoryStructure`,
`processFile` and the two traversals of `generateProjectSummary`
(src/generate.go) into pure Lean functions over that model.
-/

/-- Outcome model of the I/O operations performed on one regular file.
`openOk` is whether `os.Open` succeeds, `readErr` whether the initial
512-byte `file.Read` fails with a real (non-EOF) error, `content` the
file's bytes, and `readFileOk` whether the later `os.ReadFile` during
content capture succeeds. -/
structure FileMeta where
  openOk : Bool
  readErr : Bool
  content : List Nat
  readFileOk : Bool
deriving DecidableEq, Repr

/-- Abstract `MatchesPath` of a compiled `ignore.GitIgnore` value. -/
def GitIgnore := String → Bool

/-- Abstract `MatchString` of a compiled `regexp.Regexp` value. -/
def Regex := String → Bool

/-- The fixed built-in deny-list `predefinedIgnores` (src/generate.go lines 17-26). -/
def predefinedIgnores : List String :=
  [".git", ".vscode/", "node_modules/", "vendor/", ".idea/", ".gitignore",
   ".summaryignore", "output.txt"]

/-- Byte-prefix test of Go's `strings.HasPrefix`, realised on Lean strings
as a character-level test (equivalent for valid UTF-8 strings). -/
def strStartsWith (s pre : String) : Bool :=
  pre.data.isPrefixOf s.data

/-- `isBinary` of src/generate.go lines 28-47 (identical in
src/unnamed/part_001 lines 27-46): an open failure or a real read error
classifies the file as binary; otherwise the first up-to-512 bytes are
scanned for a NUL byte. -/
def isBinary (m : FileMeta) : Bool :=
  if !m.openOk then true
  else if m.readErr then true
  else (m.content.take 512).any (fun b => b == 0)

/-- `isBinary` of the earlier variant src/unnamed/part_000 lines 24-43:
an open failure or any read error (EOF included) classifies the file as
text.  This variant is never called by part_000's walk. -/
def isBinaryLegacy (m : FileMeta) : Bool :=
  if !m.openOk then false
  else if m.readErr || m.content.isEmpty then false
  else (m.content.take 512).any (fun b => b == 0)

/-- `shouldIgnore` of src/generate.go lines 49-60: a path is ignored when
it starts with one of the built-in literals, or when either loaded
ignore rule set (when present) matches it. -/
def shouldIgnore (path : String) (gitIgnore summaryIgnore : Option GitIgnore) : Bool :=
  predefinedIgnores.any (fun pre => strStartsWith path pre) ||
  (match gitIgnore with | some g => g path | none => false) ||
  (match summaryIgnore with | some s => s path | none => false)

mutual
/-- Filesystem model: a regular file with its I/O outcomes, or a
directory with its entries in lexical visit order. -/
inductive FSEntry where
  | file (name : String) (meta : FileMeta)
  | dir (name : String) (children : FSList)
/-- List of sibling filesystem entries, in lexical visit order. -/
inductive FSList where
  | nil
  | cons (e : FSEntry) (rest : FSList)
end

/-- Name of a filesystem entry. -/
def FSEntry.name : FSEntry → String
  | .file n _ => n
  | .dir n _ => n

/-- Relative path of a child entry, as computed by `filepath.Rel` against
the walk root (the root itself has relative path `""`). -/
def childRel (rel n : String) : String :=
  if rel = "" then n else rel ++ "/" ++ n

mutual
/-- Entries recorded by the `captureDirectoryStructure` walk
(src/generate.go lines 67-108): one element `(relPath, isDir)` per
execution of the `structure[dirPath]` insertion.  An ignored directory
returns `filepath.SkipDir`, so its subtree is never entered; an ignored
file contributes nothing. -/
def structContribs (gi si : Option GitIgnore) : FSEntry → String → List (String × Bool)
  | .file _ _, rel => if shouldIgnore rel gi si then [] else [(rel, false)]
  | .dir _ cs, rel =>
      if shouldIgnore rel gi si then [] else (rel, true) :: structContribsList gi si cs rel
/-- Contributions of a sibling list of the structure-capture walk. -/
def structContribsList (gi si : Option GitIgnore) : FSList → String → List (String × Bool)
  | .nil, _ => []
  | .cons e es, rel =>
      structContribs gi si e (childRel rel e.name) ++ structContribsList gi si es rel
end

mutual
/-- Relative paths on which the `captureDirectoryStructure` walk invokes
its callback, in visit order: `filepath.SkipDir` on an ignored directory
prevents any visit to its descendants. -/
def structVisits (gi si : Option GitIgnore) : FSEntry → String → List String
  | .file _ _, rel => [rel]
  | .dir _ cs, rel =>
      if shouldIgnore rel gi si then [rel] else rel :: structVisitsList gi si cs rel
/-- Visits of a sibling list of the structure-capture walk. -/
def structVisitsList (gi si : Option GitIgnore) : FSList → String → List String
  | .nil, _ => []
  | .cons e es, rel =>
      structVisits gi si e (childRel rel e.name) ++ structVisitsList gi si es rel
end

/-- Selection step of the file-content walk (src/generate.go lines
194-205): with an empty pattern list every file is processed; otherwise
the file is processed when some pattern matches its relative path (the
loop stops at the first match). -/
def selected (pats : List Regex) (rel : String) : Bool :=
  pats.isEmpty || pats.any (fun p => p rel)

/-- Result of `processFile` (src/generate.go lines 151-178) on one file. -/
inductive FileOutcome where
  | ignoredSkip
  | binarySkip
  | readError
  | emit (content : List Nat)
deriving DecidableEq, Repr

/-- `processFile` of src/generate.go lines 151-178 (identical in
src/unnamed/part_001 lines 88-115): skip ignored paths with a
diagnostic, skip binary files with a diagnostic, then read the whole
file, an error being returned to the walk; otherwise emit the file
section. -/
def processFile (gi si : Option GitIgnore) (rel : String) (m : FileMeta) : FileOutcome :=
  if shouldIgnore rel gi si then .ignoredSkip
  else if isBinary m then .binarySkip
  else if m.readFileOk then .emit m.content
  else .readError

/-- Observable events of the file-content walk: `visited rel` records one
invocation of the `filepath.WalkDir` callback, the others record the
decision taken on a file. -/
inductive RunEvent where
  | visited (rel : String)
  | skippedIgnored (rel : String)
  | skippedBinary (rel : String)
  | emitted (rel : String) (content : List Nat)
deriving DecidableEq, Repr

/-- Error returned out of the walk callback, aborting the traversal. -/
inductive WalkErr where
  | readFail (rel : String)
deriving DecidableEq, Repr

/-- Callback of the file-content walk on a regular file (src/generate.go
lines 180-206): the regex selection step decides whether `processFile`
runs; a read failure inside `processFile` is returned as an error. -/
def fileCallback (pats : List Regex) (gi si : Option GitIgnore) (rel : String)
    (m : FileMeta) : List RunEvent × Option WalkErr :=
  if selected pats rel then
    match processFile gi si rel m with
    | .ignoredSkip => ([.visited rel, .skippedIgnored rel], none)
    | .binarySkip => ([.visited rel, .skippedBinary rel], none)
    | .readError => ([.visited rel], some (.readFail rel))
    | .emit c => ([.visited rel, .emitted rel c], none)
  else ([.visited rel], none)

mutual
/-- File-content walk of `generateProjectSummary` (src/generate.go lines
180-206): `filepath.WalkDir` visits every entry; the callback returns
`nil` for directories (it never skips a subtree), runs the selection
step and `processFile` for files, and a returned error aborts the whole
traversal. -/
def contentWalk (pats : List Regex) (gi si : Option GitIgnore) :
    FSEntry → String → List RunEvent × Option WalkErr
  | .file _ m, rel => fileCallback pats gi si rel m
  | .dir _ cs, rel =>
      let r := contentWalkList pats gi si cs rel
      (.visited rel :: r.1, r.2)
/-- File-content walk over a sibling list: an error from one entry stops
the traversal, so later siblings are not visited. -/
def contentWalkList (pats : List Regex) (gi si : Option GitIgnore) :
    FSList → String → List RunEvent × Option WalkErr
  | .nil, _ => ([], none)
  | .cons e es, rel =>
      let r := contentWalk pats gi si e (childRel rel e.name)
      match r.2 with
      | some err => (r.1, some err)
      | none =>
          let rs := contentWalkList pats gi si es rel
          (r.1 ++ rs.1, rs.2)
end

/-- File sections emitted to the output, in order: one `(relPath, bytes)`
pair per `fmt.Fprintf` of a fenced file block. -/
def sectionsOf (evs : List RunEvent) : List (String × List Nat) :=
  evs.filterMap fun e =>
    match e with
    | .emitted rel c => some (rel, c)
    | _ => none

/-- Observable outcome of one `generateProjectSummary` run
(src/generate.go lines 110-212): the structure-section contributions,
the events of the file-content walk, and the error that aborted the walk,
if any. -/
structure RunOutput where
  structureContribs : List (String × Bool)
  events : List RunEvent
  err : Option WalkErr
deriving DecidableEq, Repr

/-- `generateProjectSummary` of src/generate.go lines 110-212 on a root
directory: capture the directory structure, then walk the tree emitting
file sections.  The walk starts at the root, whose relative path is the
empty string. -/
def generateProjectSummary (gi si : Option GitIgnore) (pats : List Regex)
    (root : FSEntry) : RunOutput :=
  { structureContribs := structContribs gi si root ""
  , events := (contentWalk pats gi si root "").1
  , err := (contentWalk pats gi si root "").2 }

/-- A small readable text file (content is the single byte 104, no NUL). -/
def mText : FileMeta := ⟨true, false, [104], true⟩

/-- A file whose binary probe succeeds but whose `os.ReadFile` during
content capture fails. -/
def mReadFail : FileMeta := ⟨true, false, [104], false⟩

/-- A file on which `os.Open` fails. -/
def mUnreadable : FileMeta := ⟨false, false, [], true⟩

/-- A root containing the built-in-ignored directory `.git` holding a
readable text file `config`. -/
def tIgnoredDir : FSEntry :=
  .dir "" (.cons (.dir ".git" (.cons (.file "config" mText) .nil)) .nil)

/-- A root whose first file fails its content read and whose second file
is perfectly readable. -/
def tReadFail : FSEntry :=
  .dir "" (.cons (.file "a.txt" mReadFail) (.cons (.file "b.txt" mText) .nil))

/-- A root containing a single readable text file. -/
def tSingle : FSEntry := .dir "" (.cons (.file "a.txt" mText) .nil)

/-- The freshly created output file, with the given byte content. -/
def mOut (c : List Nat) : FileMeta := ⟨true, false, c, true⟩

/-- A root containing its own summary at `tmp/output.txt`. -/
def tOwnOutput (c : List Nat) : FSEntry :=
  .dir "" (.cons (.dir "tmp" (.cons (.file "output.txt" (mOut c)) .nil)) .nil)

/-- A path starting with one of the built-in literals is ignored whatever
the two ignore rule sets are. -/
theorem shouldIgnore_of_builtin (path : String) (gi si : Option GitIgnore)
    (h : predefinedIgnores.any (fun pre => strStartsWith path pre) = true) :
    shouldIgnore path gi si = true := by
  simp only [shouldIgnore, h, Bool.true_or]

/-- An emitted event of the file-callback pins down the file's fate:
it was not ignored, not binary, and its content read succeeded. -/
theorem fileCallback_emitted (pats : List Regex) (gi si : Option GitIgnore)
    (rel : String) (m : FileMeta) (rel' : String) (c : List Nat)
    (h : RunEvent.emitted rel' c ∈ (fileCallback pats gi si rel m).1) :
    rel' = rel ∧ shouldIgnore rel gi si = false ∧ isBinary m = false ∧
      m.readFileOk = true ∧ m.content = c := by
  unfold fileCallback at h
  by_cases hsel : selected pats rel = true
  · rw [if_pos hsel] at h
    cases hpf : processFile gi si rel m with
    | ignoredSkip => rw [hpf] at h; simp at h
    | binarySkip => rw [hpf] at h; simp at h
    | readError => rw [hpf] at h; simp at h
    | emit c0 =>
        rw [hpf] at h
        simp at h
        obtain ⟨hrel, hc⟩ := h
        unfold processFile at hpf
        split_ifs at hpf with h1 h2 h3
        simp at hpf
        simp only [Bool.not_eq_true] at h1 h2
        exact ⟨hrel, h1, h2, h3, by rw [hpf, hc]⟩
  · rw [if_neg hsel] at h
    simp at h

mutual
/-- Every emitted event of the file-content walk comes from a file that
was not ignored, not binary, and whose content read succeeded. -/
theorem emittedSound (pats : List Regex) (gi si : Option GitIgnore) :
    (e : FSEntry) → (rel rel' : String) → (c : List Nat) →
    RunEvent.emitted rel' c ∈ (contentWalk pats gi si e rel).1 →
    ∃ m : FileMeta, shouldIgnore rel' gi si = false ∧ isBinary m = false ∧
      m.readFileOk = true ∧ m.content = c
  | .file n m, rel, rel', c, h => by
      have h' : RunEvent.emitted rel' c ∈ (fileCallback pats gi si rel m).1 := by
        simpa [contentWalk] using h
      obtain ⟨hrel, hni, hb, hrf, hc⟩ :=
        fileCallback_emitted pats gi si rel m rel' c h'
      exact ⟨m, hrel ▸ hni, hb, hrf, hc⟩
  | .dir n cs, rel, rel', c, h => by
      simp only [contentWalk] at h
      rcases List.mem_cons.mp h with h | h
      · cases h
      · exact emittedSoundList pats gi si cs rel rel' c h
/-- List version of `emittedSound`. -/
theorem emittedSoundList (pats : List Regex) (gi si : Option GitIgnore) :
    (l : FSList) → (rel rel' : String) → (c : List Nat) →
    RunEvent.emitted rel' c ∈ (contentWalkList pats gi si l rel).1 →
    ∃ m : FileMeta, shouldIgnore rel' gi si = false ∧ isBinary m = false ∧
      m.readFileOk = true ∧ m.content = c
  | .nil, rel, rel', c, h => by simp [contentWalkList] at h
  | .cons e es, rel, rel', c, h => by
      simp only [contentWalkList] at h
      cases hr : contentWalk pats gi si e (childRel rel e.name) with
      | mk ev oerr =>
          rw [hr] at h
          cases oerr with
          | some err =>
              simp only at h
              exact emittedSound pats gi si e (childRel rel e.name) rel' c
                (by rw [hr]; simpa using h)
          | none =>
              simp only at h
              rcases List.mem_append.mp h with h | h
              · exact emittedSound pats gi si e (childRel rel e.name) rel' c
                  (by rw [hr]; simpa using h)
              · exact emittedSoundList pats gi si es rel rel' c h
end

/-- C6: for every readable file, `isBinary` returns true exactly when a
NUL byte occurs in the first min(512, size) bytes; files shorter than
512 bytes are examined in full (the 512-byte take) and an empty file is
classified as text. -/
theorem claimC6_nul_probe (m : FileMeta) (h1 : m.openOk = true)
    (h2 : m.readErr = false) :
    (isBinary m = true ↔ 0 ∈ m.content.take 512) ∧
    (m.content = [] → isBinary m = false) := by
  constructor
  · simp [isBinary, h1, h2]
  · intro h3
    simp [isBinary, h1, h2, h3]

/-- Witness for C6 at a one-byte file holding a NUL. -/
theorem claimC6_witness :
    ((⟨true, false, [0], true⟩ : FileMeta).openOk = true ∧
     (⟨true, false, [0], true⟩ : FileMeta).readErr = false) ∧
    ((isBinary ⟨true, false, [0], true⟩ = true ↔
        0 ∈ (⟨true, false, [0], true⟩ : FileMeta).content.take 512) ∧
     ((⟨true, false, [0], true⟩ : FileMeta).content = [] →
        isBinary ⟨true, false, [0], true⟩ = false)) :=
  ⟨⟨rfl, rfl⟩, claimC6_nul_probe ⟨true, false, [0], true⟩ rfl rfl⟩

/-- C7: a relative path starting with one of the fixed built-in ignore
literals is flagged by `shouldIgnore` whatever the two loaded ignore
rule sets are, including when both are absent. -/
theorem claimC7_builtin (path : String) (gi si : Option GitIgnore)
    (h : ∃ pre ∈ predefinedIgnores, strStartsWith path pre = true) :
    shouldIgnore path gi si = true := by
  apply shouldIgnore_of_builtin
  simpa [List.any_eq_true] using h

/-- Witness for C7 at `.git/hooks` with two rule sets matching nothing. -/
theorem claimC7_witness :
    (∃ pre ∈ predefinedIgnores, strStartsWith ".git/hooks" pre = true) ∧
    shouldIgnore ".git/hooks" (some (fun _ => false)) (some (fun _ => false)) = true :=
  ⟨by decide,
   claimC7_builtin ".git/hooks" (some (fun _ => false)) (some (fun _ => false)) (by decide)⟩

/-- C9: built-in ignore matching is plain string-prefix matching, not
path-component matching: `.github/workflows/ci.yml` and
`.gitattributes` are ignored because they start with `.git`, and
`output.txt.bak` is ignored because it starts with `output.txt`,
regardless of the loaded rule sets. -/
theorem claimC9_prefix_matching :
    (∀ gi si : Option GitIgnore, shouldIgnore ".github/workflows/ci.yml" gi si = true) ∧
    (∀ gi si : Option GitIgnore, shouldIgnore ".gitattributes" gi si = true) ∧
    (∀ gi si : Option GitIgnore, shouldIgnore "output.txt.bak" gi si = true) ∧
    strStartsWith ".github/workflows/ci.yml" ".git" = true ∧
    strStartsWith ".gitattributes" ".git" = true ∧
    strStartsWith "output.txt.bak" "output.txt" = true :=
  ⟨fun gi si => shouldIgnore_of_builtin _ gi si (by decide),
   fun gi si => shouldIgnore_of_builtin _ gi si (by decide),
   fun gi si => shouldIgnore_of_builtin _ gi si (by decide),
   by decide, by decide, by decide⟩

/-- C2: a file whose open or initial 512-byte read fails with a real I/O
error is classified binary, so the walk records a binary-skip diagnostic
for it and continues over the remaining entries with no error. -/
theorem claimC2_io_error_skip (gi si : Option GitIgnore) (pats : List Regex)
    (n rdir : String) (m : FileMeta) (es : FSList)
    (hio : m.openOk = false ∨ m.readErr = true)
    (hni : shouldIgnore (childRel rdir n) gi si = false)
    (hsel : selected pats (childRel rdir n) = true) :
    isBinary m = true ∧
    contentWalkList pats gi si (.cons (.file n m) es) rdir =
      (.visited (childRel rdir n) :: .skippedBinary (childRel rdir n) ::
         (contentWalkList pats gi si es rdir).1,
       (contentWalkList pats gi si es rdir).2) := by
  have hb : isBinary m = true := by
    rcases hio with h | h <;> simp [isBinary, h]
  refine ⟨hb, ?_⟩
  have hpf : processFile gi si (childRel rdir n) m = .binarySkip := by
    simp [processFile, hni, hb]
  simp [contentWalkList, contentWalk, FSEntry.name, fileCallback, hsel, hpf]

/-- Witness for C2 at an unopenable file followed by no further entries. -/
theorem claimC2_witness :
    ((mUnreadable.openOk = false ∨ mUnreadable.readErr = true) ∧
     shouldIgnore (childRel "" "x.bin") none none = false ∧
     selected [] (childRel "" "x.bin") = true) ∧
    (isBinary mUnreadable = true ∧
     contentWalkList [] none none (.cons (.file "x.bin" mUnreadable) .nil) "" =
       (.visited (childRel "" "x.bin") :: .skippedBinary (childRel "" "x.bin") ::
          (contentWalkList [] none none .nil "").1,
        (contentWalkList [] none none .nil "").2)) :=
  ⟨⟨by decide, by decide, by decide⟩,
   claimC2_io_error_skip none none [] "x.bin" "" mUnreadable .nil
     (by decide) (by decide) (by decide)⟩

/-- C3 fails on the code: in `tReadFail` the file `a.txt` passes the
ignore and binary checks, its content read fails, and the walk aborts —
`b.txt` is never visited and no section is emitted, so the failure is
fatal to the run rather than a skip-and-continue. -/
theorem claimC3_counterexample :
    shouldIgnore "a.txt" none none = false ∧ isBinary mReadFail = false ∧
    (generateProjectSummary none none [] tReadFail).err = some (.readFail "a.txt") ∧
    RunEvent.visited "b.txt" ∉ (generateProjectSummary none none [] tReadFail).events ∧
    sectionsOf (generateProjectSummary none none [] tReadFail).events = [] := by
  decide

/-- C3 amended: a content-read failure during content capture is returned
out of the walk callback, aborting the traversal: the failing file is the
last entry visited and the remaining entries are never walked. -/
theorem claimC3_read_error_aborts (gi si : Option GitIgnore) (pats : List Regex)
    (n rdir : String) (m : FileMeta) (es : FSList)
    (hni : shouldIgnore (childRel rdir n) gi si = false)
    (hb : isBinary m = false) (hrf : m.readFileOk = false)
    (hsel : selected pats (childRel rdir n) = true) :
    contentWalkList pats gi si (.cons (.file n m) es) rdir =
      ([.visited (childRel rdir n)], some (.readFail (childRel rdir n))) := by
  have hpf : processFile gi si (childRel rdir n) m = .readError := by
    simp [processFile, hni, hb, hrf]
  simp [contentWalkList, contentWalk, FSEntry.name, fileCallback, hsel, hpf]

/-- Witness for the amended C3: the failing `a.txt` aborts the walk even
though a readable `b.txt` follows it. -/
theorem claimC3_witness :
    (shouldIgnore (childRel "" "a.txt") none none = false ∧
     isBinary mReadFail = false ∧ mReadFail.readFileOk = false ∧
     selected [] (childRel "" "a.txt") = true) ∧
    contentWalkList [] none none
        (.cons (.file "a.txt" mReadFail) (.cons (.file "b.txt" mText) .nil)) "" =
      ([.visited (childRel "" "a.txt")], some (.readFail (childRel "" "a.txt"))) :=
  ⟨⟨by decide, by decide, by decide, by decide⟩,
   claimC3_read_error_aborts none none [] "a.txt" "" mReadFail
     (.cons (.file "b.txt" mText) .nil) (by decide) (by decide) (by decide) (by decide)⟩

/-- C4 fails on the code: with an empty pattern list the walk processes
and emits `a.txt` even though no pattern (vacuously) matches it, because
an empty list means "process all files", not "include nothing". -/
theorem claimC4_counterexample :
    RunEvent.emitted "a.txt" [104] ∈ (generateProjectSummary none none [] tSingle).events ∧
    ¬ ∃ p ∈ ([] : List Regex), p "a.txt" = true := by
  refine ⟨by decide, ?_⟩
  rintro ⟨p, hp, _⟩
  simp at hp

/-- C4 amended: when the pattern list is nonempty a walked file is
processed exactly when some pattern matches its relative path (logical
OR, the loop stopping at the first match); an empty pattern list selects
every file; an unselected file is visited but nothing else happens. -/
theorem claimC4_regex_selection (pats : List Regex) (gi si : Option GitIgnore)
    (n rel : String) (m : FileMeta) (hne : pats ≠ []) :
    (selected pats rel = true ↔ ∃ p ∈ pats, p rel = true) ∧
    selected [] rel = true ∧
    (selected pats rel = false →
      contentWalk pats gi si (.file n m) rel = ([.visited rel], none)) := by
  refine ⟨?_, by simp [selected], fun hns => by simp [contentWalk, fileCallback, hns]⟩
  simp [selected, hne, List.any_eq_true, List.isEmpty_iff]

/-- Witness for the amended C4 with a single matching pattern. -/
theorem claimC4_witness :
    ([fun s => s == "src.go"] ≠ ([] : List Regex)) ∧
    ((selected [fun s => s == "src.go"] "src.go" = true ↔
        ∃ p ∈ ([fun s => s == "src.go"] : List Regex), p "src.go" = true) ∧
     selected [] "src.go" = true ∧
     (selected [fun s => s == "src.go"] "src.go" = false →
       contentWalk [fun s => s == "src.go"] none none (.file "src.go" mText) "src.go" =
         ([.visited "src.go"], none))) :=
  ⟨List.cons_ne_nil _ _,
   claimC4_regex_selection [fun s => s == "src.go"] none none "src.go" "src.go" mText
     (List.cons_ne_nil _ _)⟩

/-- C1 fails on the code: `.git` is flagged by `shouldIgnore`, yet the
file-content walk still descends into it and visits its descendant
`.git/config` (which is then skipped file-by-file), so descendants of an
ignored directory are visited by one of the two walks. -/
theorem claimC1_counterexample :
    shouldIgnore ".git" none none = true ∧
    RunEvent.visited ".git/config" ∈ (generateProjectSummary none none [] tIgnoredDir).events := by
  decide

/-- C1 amended: an ignored directory contributes nothing to the structure
section and the structure-capture walk does not visit its descendants
(it is the only visited path of its subtree); the file-content walk does
descend, but no path flagged by `shouldIgnore` is ever emitted as a file
section. -/
theorem claimC1_ignored_dir (gi si : Option GitIgnore) (pats : List Regex)
    (n rel : String) (cs : FSList) (e : FSEntry) (rel0 rel' : String) (c : List Nat)
    (hdir : shouldIgnore rel gi si = true)
    (hmem : RunEvent.emitted rel' c ∈ (contentWalk pats gi si e rel0).1) :
    structContribs gi si (.dir n cs) rel = [] ∧
    structVisits gi si (.dir n cs) rel = [rel] ∧
    shouldIgnore rel' gi si = false := by
  refine ⟨by simp [structContribs, hdir], by simp [structVisits, hdir], ?_⟩
  obtain ⟨m, hni, _, _, _⟩ := emittedSound pats gi si e rel0 rel' c hmem
  exact hni

/-- Witness for the amended C1 at the built-in-ignored `.git` directory
and an emitted section of a one-file tree. -/
theorem claimC1_witness :
    (shouldIgnore ".git" none none = true ∧
     RunEvent.emitted "a.txt" [104] ∈ (contentWalk [] none none tSingle "").1) ∧
    (structContribs none none (.dir ".git" .nil) ".git" = [] ∧
     structVisits none none (.dir ".git" .nil) ".git" = [".git"] ∧
     shouldIgnore "a.txt" none none = false) :=
  ⟨⟨by decide, by decide⟩,
   claimC1_ignored_dir none none [] ".git" ".git" .nil tSingle "" "a.txt" [104]
     (by decide) (by decide)⟩

/-- C5: every emitted file section comes from a file for which `isBinary`
returned false (and whose content read then succeeded), and a
non-ignored selected file for which `isBinary` returns true is skipped
with a binary diagnostic and nothing is emitted for it. -/
theorem claimC5_binary_gate (gi si : Option GitIgnore) (pats : List Regex)
    (e : FSEntry) (rel0 rel' : String) (c : List Nat) (n rel : String) (m : FileMeta)
    (hmem : RunEvent.emitted rel' c ∈ (contentWalk pats gi si e rel0).1)
    (hni : shouldIgnore rel gi si = false) (hb : isBinary m = true)
    (hsel : selected pats rel = true) :
    (∃ m' : FileMeta, isBinary m' = false ∧ m'.readFileOk = true ∧ m'.content = c) ∧
    contentWalk pats gi si (.file n m) rel = ([.visited rel, .skippedBinary rel], none) := by
  obtain ⟨m', _, hb', hrf', hc'⟩ := emittedSound pats gi si e rel0 rel' c hmem
  refine ⟨⟨m', hb', hrf', hc'⟩, ?_⟩
  have hpf : processFile gi si rel m = .binarySkip := by
    simp [processFile, hni, hb]
  simp [contentWalk, fileCallback, hsel, hpf]

/-- Witness for C5 at an emitted text file and a skipped unopenable file. -/
theorem claimC5_witness :
    (RunEvent.emitted "a.txt" [104] ∈ (contentWalk [] none none tSingle "").1 ∧
     shouldIgnore "x.bin" none none = false ∧ isBinary mUnreadable = true ∧
     selected [] "x.bin" = true) ∧
    ((∃ m' : FileMeta, isBinary m' = false ∧ m'.readFileOk = true ∧ m'.content = [104]) ∧
     contentWalk [] none none (.file "x.bin" mUnreadable) "x.bin" =
       ([.visited "x.bin", .skippedBinary "x.bin"], none)) :=
  ⟨⟨by decide, by decide, by decide, by decide⟩,
   claimC5_binary_gate none none [] tSingle "" "a.txt" [104] "x.bin" "x.bin" mUnreadable
     (by decide) (by decide) (by decide) (by decide)⟩

/-- C8: a run of `generateProjectSummary` is a pure function of the rule
sets, the pattern list and the tree, so two runs over the same unchanged
tree with the same configuration produce identical output. -/
theorem claimC8_deterministic (gi si : Option GitIgnore) (pats : List Regex)
    (fs1 fs2 : FSEntry) (h : fs1 = fs2) :
    generateProjectSummary gi si pats fs1 = generateProjectSummary gi si pats fs2 := by
  rw [h]

/-- Witness for C8: two runs over the one-file tree agree. -/
theorem claimC8_witness :
    tSingle = tSingle ∧
    generateProjectSummary none none [] tSingle = generateProjectSummary none none [] tSingle :=
  ⟨rfl, claimC8_deterministic none none [] tSingle tSingle rfl⟩

/-- C10: `tmp/output.txt` starts with no built-in ignore literal, so in
the variant writing its summary below the scanned root the freshly
created output file is itself visited by the walk, passes the ignore and
binary checks (its content holding no NUL byte), and is emitted as a
file section inside its own summary, the walk finishing without error. -/
theorem claimC10_output_self_inclusion (c : List Nat) (h : 0 ∉ c.take 512) :
    (∀ pre ∈ predefinedIgnores, strStartsWith "tmp/output.txt" pre = false) ∧
    RunEvent.visited "tmp/output.txt" ∈
      (generateProjectSummary none none [] (tOwnOutput c)).events ∧
    sectionsOf (generateProjectSummary none none [] (tOwnOutput c)).events =
      [("tmp/output.txt", c)] ∧
    (generateProjectSummary none none [] (tOwnOutput c)).err = none := by
  have hib : isBinary ⟨true, false, c, true⟩ = false := by
    simp [isBinary, List.any_eq_false]
    intro x hx h0
    exact h (h0 ▸ hx)
  have hcr1 : childRel "" "tmp" = "tmp" := rfl
  have hcr2 : childRel "tmp" "output.txt" = "tmp/output.txt" := rfl
  have hsi : shouldIgnore "tmp/output.txt" none none = false := by decide
  have hpf : processFile none none "tmp/output.txt" (mOut c) = .emit c := by
    simp [processFile, hsi, hib, mOut]
  refine ⟨by decide, ?_, ?_, ?_⟩ <;>
    simp [generateProjectSummary, tOwnOutput, contentWalk, contentWalkList, FSEntry.name,
      hcr1, hcr2, fileCallback, selected, hpf, sectionsOf]

/-- Witness for C10 at a one-byte NUL-free output file. -/
theorem claimC10_witness :
    (0 ∉ ([104] : List Nat).take 512) ∧
    ((∀ pre ∈ predefinedIgnores, strStartsWith "tmp/output.txt" pre = false) ∧
     RunEvent.visited "tmp/output.txt" ∈
       (generateProjectSummary none none [] (tOwnOutput [104])).events ∧
     sectionsOf (generateProjectSummary none none [] (tOwnOutput [104])).events =
       [("tmp/output.txt", [104])] ∧
     (generateProjectSummary none none [] (tOwnOutput [104])).err = none) :=
  ⟨by decide, claimC10_output_self_inclusion [104] (by decide)⟩
